import Mathlib

/-!
Shallow embedding of the PPO policy-optimization core of the repository
`cage-challenge-2-RLLM` (file `src/PPO/PPO.py`), together with theorems that
settle the frozen claims about it.

Conventions of the embedding:

* Machine floats are modelled by real numbers, with IEEE NaN modelled
  explicitly as `Option ℝ` (`none` = NaN) at the places where the source can
  produce NaN: `torch.std` of fewer than two samples divides by `n - 1` and
  so yields NaN, and NaN propagates through arithmetic, `exp`, `min` and
  means.  Finite values are `some x`.
* 1-D torch tensors are modelled as `List`s of their entries; the stored
  per-step state tensors (shape `[1, d]`) are the rows of the batch obtained
  by `torch.cat`, so the batch is the list of rows.
* Elementwise binary tensor operations follow torch's 1-D broadcasting rule:
  equal lengths operate pointwise, a length-one operand is stretched, and any
  other length combination raises a size-mismatch `RuntimeError`, modelled by
  `Except.error`.
* `torch.cat` / `torch.stack` raise on an empty tensor list, modelled by
  `Except.error`; fallible operations return `Except String _`.
* The neural networks, autodiff and the Adam optimizer live in the missing
  `ActorCritic.py` and in the torch library, not in `src/`; they are
  abstracted: policy parameters are an opaque type `P`, optimizer state an
  opaque type `O`, `evaluate` is an arbitrary function
  `P → states → actions → (logprobs, values, entropy)` and the
  backward/step pair is an arbitrary function `P → O → loss → P × O`.
  Theorems quantify over these, so they hold for every concrete network.
-/

/-! ### NaN-aware scalar arithmetic (IEEE semantics, `none` = NaN) -/

/-- Lift a binary real operation to NaN-propagating `Option ℝ` values. -/
def olift2 (f : ℝ → ℝ → ℝ) : Option ℝ → Option ℝ → Option ℝ
  | some a, some b => some (f a b)
  | _, _ => none

/-- NaN-propagating subtraction. -/
noncomputable def osub : Option ℝ → Option ℝ → Option ℝ := olift2 (fun a b => a - b)

/-- NaN-propagating multiplication. -/
noncomputable def omul : Option ℝ → Option ℝ → Option ℝ := olift2 (fun a b => a * b)

/-- NaN-propagating addition. -/
noncomputable def oadd : Option ℝ → Option ℝ → Option ℝ := olift2 (fun a b => a + b)

/-- NaN-propagating binary minimum (torch's `min` returns NaN if an operand is NaN). -/
noncomputable def omin : Option ℝ → Option ℝ → Option ℝ := olift2 min

/-- NaN-propagating negation. -/
noncomputable def oneg (x : Option ℝ) : Option ℝ := Option.map (fun a => -a) x

/-- NaN-propagating multiplication by a finite scalar. -/
noncomputable def osca (c : ℝ) (x : Option ℝ) : Option ℝ := Option.map (fun a => c * a) x

/-- Sum of a list of NaN-aware scalars; NaN if any entry is NaN. -/
noncomputable def osum (l : List (Option ℝ)) : Option ℝ :=
  l.foldr (fun a acc => oadd a acc) (some 0)

/-- Mean of a list of NaN-aware scalars; torch's mean of an empty tensor is NaN. -/
noncomputable def omean (l : List (Option ℝ)) : Option ℝ :=
  if l.length = 0 then none else Option.map (fun s => s / (l.length : ℝ)) (osum l)

/-! ### Torch tensor-level helpers -/

namespace Torch

/-- Error message of `torch.cat` on an empty tensor list. -/
def catEmptyErr : String := "torch.cat(): expected a non-empty list of Tensors"

/-- Error message of a 1-D broadcasting size mismatch. -/
def sizeErr : String :=
  "The size of tensor a must match the size of tensor b at non-singleton dimension 0"

/-- Model of `torch.cat(tensors, 0)` on the stored `[1, d]` state tensors: the
resulting batch is the list of state rows; torch raises on an empty list. -/
def cat (l : List (List ℝ)) : Except String (List (List ℝ)) :=
  match l with
  | [] => .error catEmptyErr
  | _ => .ok l

/-- Model of `torch.stack(tensors)` on stored scalar tensors: the resulting 1-D
tensor is the list of values; torch raises on an empty list. -/
def stack {α : Type} (l : List α) : Except String (List α) :=
  match l with
  | [] => .error catEmptyErr
  | _ => .ok l

/-- Model of `Tensor.squeeze()` at the value level: removing size-one
dimensions reorganizes the shape but keeps the entries, so on our list-of-
entries representation it is the identity.  The shape-level effect is modelled
separately by `squeezeShape`. -/
def squeezeVals {α : Type} (l : List α) : List α := l

/-- Shape of a tensor as its list of dimension sizes; `torch.stack` of `n`
tensors of shape `s` has shape `n :: s`. -/
def stackShape (n : ℕ) (s : List ℕ) : List ℕ := n :: s

/-- Model of `Tensor.squeeze()` at the shape level: every size-one dimension
is removed. -/
def squeezeShape (s : List ℕ) : List ℕ := s.filter (fun d => d != 1)

/-- Model of `torch.clamp(x, lo, hi)`. -/
def clamp {α : Type} [LinearOrder α] (x lo hi : α) : α := min (max x lo) hi

/-- Elementwise binary operation on 1-D tensors under torch's broadcasting
rule: equal lengths act pointwise, a length-one operand is stretched to the
other length, anything else raises a size-mismatch `RuntimeError`. -/
def bcast (f : Option ℝ → Option ℝ → Option ℝ) (xs ys : List (Option ℝ)) :
    Except String (List (Option ℝ)) :=
  if xs.length = ys.length then .ok (List.zipWith f xs ys)
  else if xs.length = 1 then .ok (ys.map (fun y => f (xs.headD none) y))
  else if ys.length = 1 then .ok (xs.map (fun x => f x (ys.headD none)))
  else .error sizeErr

end Torch

/-! ### Return computation (`PPO._compute_returns`, PPO.py lines 45-55) -/

/-- One iteration of the loop body of `_compute_returns`: given the running
state `(discounted, rewards-so-far)` and the pair `(reward, done)` of the next
transition (walking from most recent to earliest), reset the running total at
a terminal, fold in the reward, and insert the result at position 0. -/
def returnsStep {K : Type} [Ring K] (gamma : K) (acc : K × List K) (rd : K × Bool) :
    K × List K :=
  let d := if rd.2 then 0 else acc.1
  let d2 := rd.1 + gamma * d
  (d2, d2 :: acc.2)

/-- The pre-normalization part of `PPO._compute_returns`: iterate over
`zip(reversed(rewards), reversed(is_terminals))` accumulating the discounted
total, inserting each value at the front.  `zip` truncates to the shorter of
the two reversed sequences, exactly as Python's `zip` does. -/
def computeReturnsPre {K : Type} [Ring K] (gamma : K) (rewards : List K)
    (terminals : List Bool) : List K :=
  ((rewards.reverse.zip terminals.reverse).foldl (returnsStep gamma) (0, [])).2

/-- Modelled from the spec: the recurrence the spec states for the returns,
`R_i = r_i + gamma * R_{i+1}` with the running total reset to zero at each
terminal before that step's reward is folded in (so `R_i = r_i` at a terminal
step).  This is the comparison definition for the refinement claim C1; the
source-derived definition is `computeReturnsPre`. -/
def specReturns {K : Type} [Ring K] (gamma : K) : List K → List Bool → List K
  | r :: rs, d :: ds =>
    let rest := specReturns gamma rs ds
    (r + gamma * (if d then 0 else rest.headD 0)) :: rest
  | _, _ => []

/-- Model of `Tensor.mean()` on a nonempty finite tensor. -/
noncomputable def tmean (xs : List ℝ) : ℝ := xs.sum / (xs.length : ℝ)

/-- Model of `Tensor.std()` on a tensor with at least two finite entries:
torch's default is the Bessel-corrected sample standard deviation, dividing
the sum of squared deviations by `n - 1`. -/
noncomputable def tstd (xs : List ℝ) : ℝ :=
  Real.sqrt ((xs.map (fun x => (x - tmean xs) ^ 2)).sum / ((xs.length : ℝ) - 1))

/-- Model of `(rewards - rewards.mean()) / (rewards.std() + 1e-8)`
(PPO.py line 54).  For fewer than two entries `torch.std` divides the zero sum
of squared deviations by `n - 1 ≤ 0`; for `n = 1` this is `0.0 / 0.0 = NaN`,
which poisons every output entry, so each entry is `none`.  (For `n = 0` the
output tensor is empty, which the same branch produces.) -/
noncomputable def normalizeReturns (xs : List ℝ) : List (Option ℝ) :=
  if xs.length ≤ 1 then xs.map (fun _ => none)
  else xs.map (fun x => some ((x - tmean xs) / (tstd xs + 1e-8)))

/-- Full model of `PPO._compute_returns`: the reverse-walk discounted returns
followed by the in-place normalization of line 54. -/
noncomputable def PPO.compute_returns (gamma : ℝ) (rewards : List ℝ)
    (terminals : List Bool) : List (Option ℝ) :=
  normalizeReturns (computeReturnsPre gamma rewards terminals)

/-! ### Clipped surrogate term (PPO.py lines 70-72, scalar view) -/

/-- The per-transition clipped surrogate term
`min(ratio * advantage, clamp(ratio, 1 - eps, 1 + eps) * advantage)` of
`surr1`/`surr2`/`torch.min` in `PPO.update`, viewed at a single transition.
Stated over `ℚ` so that concrete instances are decidable. -/
def surrTerm (eps r a : ℚ) : ℚ :=
  min (r * a) (Torch.clamp r (1 - eps) (1 + eps) * a)

/-! ### Memory (Modelled from the spec: the `Memory` class lives in the
missing `src/PPO/ActorCritic.py`; §3 and §4.2 of the spec describe it as five
parallel append-only sequences with a `clear` that empties all of them.) -/

structure Memory where
  states : List (List ℝ)
  actions : List ℕ
  logprobs : List ℝ
  rewards : List ℝ
  is_terminals : List Bool

/-- The empty transition buffer. -/
def emptyMemory : Memory :=
  { states := [], actions := [], logprobs := [], rewards := [], is_terminals := [] }

/-- Modelled from the spec: `Memory.clear()` empties all five parallel
sequences (§4.2). -/
def Memory.clear (_m : Memory) : Memory := emptyMemory

/-- Modelled from the spec: `ActorCritic.act(state, memory)` (§4.1) computes
the action distribution for `state`, samples an action with its
log-probability, records `(state, action, logprob)` into the memory, and
returns the action.  The sampling of the distribution head is abstracted by
the function `actF : P → state → (action, logprob)`, a parameter of every
theorem that uses it. -/
def act {P : Type} (actF : P → List ℝ → ℕ × ℝ) (p : P) (state : List ℝ)
    (m : Memory) : ℕ × Memory :=
  let ar := actF p state
  (ar.1,
   { m with
      states := m.states ++ [state]
      actions := m.actions ++ [ar.1]
      logprobs := m.logprobs ++ [ar.2] })

/-! ### The PPO controller (`PPO.__init__`, `select_action`, `update`) -/

/-- The state of a `PPO` object: configuration fixed at construction, the two
policies, the optimizer state and the shared memory.  Policy parameters `P`
and optimizer state `O` are opaque (the networks live in the missing
`ActorCritic.py` and in torch). -/
structure PPOState (P O : Type) where
  gamma : ℝ
  eps_clip : ℝ
  K_epochs : ℕ
  policy : P
  policy_old : P
  optim : O
  memory : Memory

/-- Model of `PPO.__init__` (PPO.py lines 17-38): both `ActorCritic` networks
are freshly initialized (`p` and `pOldInit`), then
`policy_old.load_state_dict(policy.state_dict())` overwrites the old policy
with an exact copy of the current one, so `pOldInit` is discarded. -/
def PPO.init {P O : Type} (p _pOldInit : P) (o : O) (gamma eps_clip : ℝ)
    (K_epochs : ℕ) : PPOState P O :=
  { gamma := gamma, eps_clip := eps_clip, K_epochs := K_epochs,
    policy := p, policy_old := p, optim := o, memory := emptyMemory }

/-- Model of `PPO.select_action` (PPO.py lines 40-43): delegate to the old
policy's `act`, which records the transition into the shared memory; nothing
else in the controller state changes. -/
def PPO.select_action {P O : Type} (actF : P → List ℝ → ℕ × ℝ)
    (s : PPOState P O) (state : List ℝ) : ℕ × PPOState P O :=
  let am := act actF s.policy_old state s.memory
  (am.1, { s with memory := am.2 })

/-- One epoch of the `for _ in range(self.K_epochs)` loop of `PPO.update`
(PPO.py lines 63-80).  `ev` abstracts `self.policy.evaluate` (missing
`ActorCritic.py`); `step` abstracts
`zero_grad`/`backward`/`clip_grad_norm_`/`optimizer.step()`, which are torch
autodiff internals, as an arbitrary function of the current parameters,
optimizer state and loss.  Returns the new parameters, the new optimizer
state, and the advantage vector used in this epoch. -/
noncomputable def PPO.epochBody {P O : Type}
    (ev : P → List (List ℝ) → List ℕ → List ℝ × List ℝ × List ℝ)
    (step : P → O → Option ℝ → P × O) (eps_clip : ℝ)
    (returns : List (Option ℝ)) (old_states : List (List ℝ))
    (old_actions : List ℕ) (old_logprobs : List ℝ) (p : P) (o : O) :
    Except String (P × O × List (Option ℝ)) := do
  let evalRes := ev p old_states old_actions
  let logprobs := evalRes.1
  let state_values := evalRes.2.1
  let dist_entropy := evalRes.2.2
  let diffs ← Torch.bcast osub (logprobs.map some) (old_logprobs.map some)
  let ratios := diffs.map (Option.map Real.exp)
  let advantages ← Torch.bcast osub returns (state_values.map some)
  let surr1 ← Torch.bcast omul ratios advantages
  let surr2 ← Torch.bcast omul
    (ratios.map (Option.map (fun r => Torch.clamp r (1 - eps_clip) (1 + eps_clip))))
    advantages
  let minsurr ← Torch.bcast omin surr1 surr2
  let actor_loss := oneg (omean minsurr)
  let sqerr ← Torch.bcast osub (state_values.map some) returns
  let critic_loss := omean (sqerr.map (Option.map (fun d => d ^ 2)))
  let entropy_loss := oneg (omean (dist_entropy.map some))
  let loss := oadd (oadd actor_loss (osca 0.5 critic_loss)) (osca 0.01 entropy_loss)
  let pn := step p o loss
  .ok (pn.1, pn.2, advantages)

/-- The `K_epochs` iterations of the epoch loop, collecting the advantage
vector of each epoch in order. -/
noncomputable def PPO.epochLoop {P O : Type}
    (ev : P → List (List ℝ) → List ℕ → List ℝ × List ℝ × List ℝ)
    (step : P → O → Option ℝ → P × O) (eps_clip : ℝ)
    (returns : List (Option ℝ)) (old_states : List (List ℝ))
    (old_actions : List ℕ) (old_logprobs : List ℝ) :
    ℕ → P → O → Except String (P × O × List (List (Option ℝ)))
  | 0, p, o => .ok (p, o, [])
  | k + 1, p, o => do
    let r ← PPO.epochBody ev step eps_clip returns old_states old_actions old_logprobs p o
    let rest ← PPO.epochLoop ev step eps_clip returns old_states old_actions old_logprobs
      k r.1 r.2.1
    .ok (rest.1, rest.2.1, r.2.2 :: rest.2.2)

/-- The parameter/optimizer pair reached after running exactly `k` epoch
bodies from `(p, o)`: the policy after `k` optimizer steps of this update. -/
noncomputable def PPO.iterEpochs {P O : Type}
    (ev : P → List (List ℝ) → List ℕ → List ℝ × List ℝ × List ℝ)
    (step : P → O → Option ℝ → P × O) (eps_clip : ℝ)
    (returns : List (Option ℝ)) (old_states : List (List ℝ))
    (old_actions : List ℕ) (old_logprobs : List ℝ) :
    ℕ → P → O → Except String (P × O)
  | 0, p, o => .ok (p, o)
  | k + 1, p, o => do
    let r ← PPO.epochBody ev step eps_clip returns old_states old_actions old_logprobs p o
    PPO.iterEpochs ev step eps_clip returns old_states old_actions old_logprobs k r.1 r.2.1

/-- Model of `PPO.update` (PPO.py lines 57-83), in source order: compute the
normalized returns, `cat` the states, `stack`-and-`squeeze` the actions,
`stack` the log-probabilities, run the `K_epochs` epoch loop, overwrite the
old policy with the post-update current policy
(`policy_old.load_state_dict(policy.state_dict())`), and clear the memory.
Also returns the per-epoch advantage vectors for use in the theorems. -/
noncomputable def PPO.update {P O : Type}
    (ev : P → List (List ℝ) → List ℕ → List ℝ × List ℝ × List ℝ)
    (step : P → O → Option ℝ → P × O) (s : PPOState P O) :
    Except String (PPOState P O × List (List (Option ℝ))) := do
  let returns := PPO.compute_returns s.gamma s.memory.rewards s.memory.is_terminals
  let old_states ← Torch.cat s.memory.states
  let old_actions0 ← Torch.stack s.memory.actions
  let old_actions := Torch.squeezeVals old_actions0
  let old_logprobs ← Torch.stack s.memory.logprobs
  let r ← PPO.epochLoop ev step s.eps_clip returns old_states old_actions old_logprobs
    s.K_epochs s.policy s.optim
  let sNew : PPOState P O :=
    { s with
        policy := r.1
        policy_old := r.1
        optim := r.2.1
        memory := s.memory.clear }
  .ok (sNew, r.2.2)

/-- Modelled from the spec: `act` returns "the sampled discrete action index"
(§4.1), a scalar, i.e. a 0-dimensional tensor (`dist.sample()`), so each
stored action has the empty shape. -/
def actionShape : List ℕ := []

/-- Shape of `torch.stack(self.memory.actions).squeeze()` (PPO.py line 59)
for a rollout of `n` stored scalar actions. -/
def PPO.stackedActionsShape (n : ℕ) : List ℕ :=
  Torch.squeezeShape (Torch.stackShape n actionShape)

/-! ### General helper lemmas -/

/-- Inversion for a successful `Except` bind: the first computation succeeded
and its result made the continuation succeed. -/
theorem except_bind_ok {α β : Type} {x : Except String α} {f : α → Except String β}
    {b : β} (h : x >>= f = Except.ok b) :
    ∃ a, x = Except.ok a ∧ f a = Except.ok b := by
  cases x with
  | error e =>
    change Except.error e = Except.ok b at h
    exact Except.noConfusion h
  | ok a =>
    change f a = Except.ok b at h
    exact ⟨a, rfl, h⟩

/-- The spec-recurrence returns list is as long as the shorter input. -/
theorem specReturns_length {K : Type} [Ring K] (gamma : K) :
    ∀ (rw : List K) (tm : List Bool),
      (specReturns gamma rw tm).length = min rw.length tm.length
  | [], tm => by cases tm <;> simp [specReturns]
  | r :: rs, [] => by simp [specReturns]
  | r :: rs, d :: ds => by
    simp [specReturns, specReturns_length gamma rs ds, Nat.succ_min_succ]

/-- Folding the loop body of `_compute_returns` from the right over the
chronological transition list produces the spec-recurrence returns, with the
running total equal to the most recent value produced (or `0` initially). -/
theorem foldr_returnsStep {K : Type} [Ring K] (gamma : K) :
    ∀ (rw : List K) (tm : List Bool),
      (rw.zip tm).foldr (fun rd acc => returnsStep gamma acc rd) (0, []) =
        ((specReturns gamma rw tm).headD 0, specReturns gamma rw tm)
  | [], tm => by cases tm <;> simp [specReturns]
  | r :: rs, [] => by simp [specReturns]
  | r :: rs, d :: ds => by
    have ih := foldr_returnsStep gamma rs ds
    simp only [List.zip_cons_cons, List.foldr_cons, ih]
    simp [returnsStep, specReturns]

/-- Reversing two lists of the same length before zipping is the same as
zipping and then reversing. -/
theorem zip_reverse_eq {α β : Type} :
    ∀ (as : List α) (bs : List β), as.length = bs.length →
      as.reverse.zip bs.reverse = (as.zip bs).reverse
  | [], bs, h => by
    cases bs with
    | nil => rfl
    | cons b bs => simp at h
  | a :: as, bs, h => by
    cases bs with
    | nil => simp at h
    | cons b bs =>
      have hlen : as.length = bs.length := by simpa using h
      simp only [List.reverse_cons, List.zip_cons_cons]
      rw [List.zip_append (by simpa using hlen), zip_reverse_eq as bs hlen]
      simp

/-- Refinement of the reverse-walk loop of `_compute_returns` against the
spec's forward recurrence, for rollouts whose reward and terminal sequences
have equal length. -/
theorem computeReturnsPre_eq_spec {K : Type} [Ring K] (gamma : K)
    (rw : List K) (tm : List Bool) (h : rw.length = tm.length) :
    computeReturnsPre gamma rw tm = specReturns gamma rw tm := by
  unfold computeReturnsPre
  rw [zip_reverse_eq rw tm h, List.foldl_reverse, foldr_returnsStep gamma rw tm]

/-- Normalization preserves the number of return values. -/
theorem normalizeReturns_length (xs : List ℝ) :
    (normalizeReturns xs).length = xs.length := by
  unfold normalizeReturns
  split <;> simp

/-- The full return computation produces one value per transition when the
reward and terminal sequences have equal length. -/
theorem compute_returns_length (gamma : ℝ) (rw : List ℝ) (tm : List Bool)
    (h : rw.length = tm.length) :
    (PPO.compute_returns gamma rw tm).length = rw.length := by
  unfold PPO.compute_returns
  rw [normalizeReturns_length, computeReturnsPre_eq_spec gamma rw tm h,
    specReturns_length, h, Nat.min_self]

/-- Inversion for `Torch.cat`: success returns the input batch unchanged. -/
theorem cat_ok {l v : List (List ℝ)} (h : Torch.cat l = Except.ok v) : v = l := by
  cases l with
  | nil => exact Except.noConfusion h
  | cons x xs => cases h; rfl

/-- Inversion for `Torch.stack`: success returns the input values unchanged. -/
theorem stack_ok {α : Type} {l v : List α} (h : Torch.stack l = Except.ok v) : v = l := by
  cases l with
  | nil => exact Except.noConfusion h
  | cons x xs => cases h; rfl

/-- Inversion for one epoch body: on success, the advantage vector it reports
is exactly the broadcast difference between the normalized returns and the
value estimates that `evaluate` computed from the epoch's entry parameters. -/
theorem epochBody_ok_adv {P O : Type}
    {ev : P → List (List ℝ) → List ℕ → List ℝ × List ℝ × List ℝ}
    {step : P → O → Option ℝ → P × O} {eps : ℝ} {rts : List (Option ℝ)}
    {sts : List (List ℝ)} {acts : List ℕ} {lps : List ℝ} {p : P} {o : O}
    {r : P × O × List (Option ℝ)}
    (h : PPO.epochBody ev step eps rts sts acts lps p o = Except.ok r) :
    Torch.bcast osub rts (((ev p sts acts).2.1).map some) = Except.ok r.2.2 := by
  simp only [PPO.epochBody] at h
  obtain ⟨diffs, hdif, h⟩ := except_bind_ok h
  obtain ⟨adv, hadv, h⟩ := except_bind_ok h
  obtain ⟨s1, hs1, h⟩ := except_bind_ok h
  obtain ⟨s2, hs2, h⟩ := except_bind_ok h
  obtain ⟨ms, hms, h⟩ := except_bind_ok h
  obtain ⟨sq, hsq, h⟩ := except_bind_ok h
  cases h
  exact hadv

/-- On success the epoch loop reports exactly one advantage vector per epoch. -/
theorem epochLoop_ok_length {P O : Type}
    {ev : P → List (List ℝ) → List ℕ → List ℝ × List ℝ × List ℝ}
    {step : P → O → Option ℝ → P × O} {eps : ℝ} {rts : List (Option ℝ)}
    {sts : List (List ℝ)} {acts : List ℕ} {lps : List ℝ} :
    ∀ (K : ℕ) (p : P) (o : O) {r : P × O × List (List (Option ℝ))},
      PPO.epochLoop ev step eps rts sts acts lps K p o = Except.ok r →
      r.2.2.length = K
  | 0, p, o, r, h => by cases h; rfl
  | K + 1, p, o, r, h => by
    simp only [PPO.epochLoop] at h
    obtain ⟨r1, h1, h⟩ := except_bind_ok h
    obtain ⟨rest, hrest, h⟩ := except_bind_ok h
    cases h
    simpa using epochLoop_ok_length K r1.1 r1.2.1 hrest

/-- Correspondence between the epoch loop and the `k`-fold epoch iterate: when
the loop over `K` epochs succeeds, the advantage vector it used at epoch `k`
is the broadcast difference between the normalized returns and the value
estimates recomputed by `evaluate` at the parameters reached after `k`
optimizer steps. -/
theorem epochLoop_advantages {P O : Type}
    {ev : P → List (List ℝ) → List ℕ → List ℝ × List ℝ × List ℝ}
    {step : P → O → Option ℝ → P × O} {eps : ℝ} {rts : List (Option ℝ)}
    {sts : List (List ℝ)} {acts : List ℕ} {lps : List ℝ} :
    ∀ (k K : ℕ) (p : P) (o : O) {r : P × O × List (List (Option ℝ))}, k < K →
      PPO.epochLoop ev step eps rts sts acts lps K p o = Except.ok r →
      ∃ po advk,
        PPO.iterEpochs ev step eps rts sts acts lps k p o = Except.ok po
        ∧ r.2.2[k]? = some advk
        ∧ Torch.bcast osub rts (((ev po.1 sts acts).2.1).map some) = Except.ok advk
  | 0, K + 1, p, o, r, _hk, h => by
    simp only [PPO.epochLoop] at h
    obtain ⟨r1, h1, h⟩ := except_bind_ok h
    obtain ⟨rest, hrest, h⟩ := except_bind_ok h
    cases h
    refine ⟨(p, o), r1.2.2, rfl, ?_, epochBody_ok_adv h1⟩
    simp
  | k + 1, K + 1, p, o, r, hk, h => by
    simp only [PPO.epochLoop] at h
    obtain ⟨r1, h1, h⟩ := except_bind_ok h
    obtain ⟨rest, hrest, h⟩ := except_bind_ok h
    cases h
    obtain ⟨po, advk, hiter, hidx, hb⟩ :=
      epochLoop_advantages k K r1.1 r1.2.1 (Nat.lt_of_succ_lt_succ hk) hrest
    refine ⟨po, advk, ?_, ?_, hb⟩
    · simp only [PPO.iterEpochs, h1]
      change PPO.iterEpochs ev step eps rts sts acts lps k r1.1 r1.2.1 = Except.ok po
      exact hiter
    · simpa using hidx

/-- Inversion for a successful `update`: the new controller state keeps the
configuration, installs the post-loop parameters as both the current and the
old policy, and resets the memory to empty. -/
theorem update_ok_state {P O : Type}
    {ev : P → List (List ℝ) → List ℕ → List ℝ × List ℝ × List ℝ}
    {step : P → O → Option ℝ → P × O} {s s' : PPOState P O}
    {advs : List (List (Option ℝ))}
    (h : PPO.update ev step s = Except.ok (s', advs)) :
    ∃ pf ofin, s' = { s with policy := pf, policy_old := pf, optim := ofin,
                              memory := emptyMemory } := by
  simp only [PPO.update] at h
  obtain ⟨os, hos, h⟩ := except_bind_ok h
  obtain ⟨oa, hoa, h⟩ := except_bind_ok h
  obtain ⟨olp, holp, h⟩ := except_bind_ok h
  obtain ⟨r, hr, h⟩ := except_bind_ok h
  cases h
  exact ⟨r.1, r.2.1, rfl⟩

/-- When the two operands have the same length, broadcasting acts pointwise. -/
theorem bcast_of_eq_len {f : Option ℝ → Option ℝ → Option ℝ}
    {xs ys : List (Option ℝ)} (h : xs.length = ys.length) :
    Torch.bcast f xs ys = Except.ok (List.zipWith f xs ys) := by
  unfold Torch.bcast
  rw [if_pos h]

/-- When the lengths differ and neither operand has length one, broadcasting
raises the size-mismatch error. -/
theorem bcast_of_mismatch {f : Option ℝ → Option ℝ → Option ℝ}
    {xs ys : List (Option ℝ)} (h1 : xs.length ≠ ys.length) (h2 : xs.length ≠ 1)
    (h3 : ys.length ≠ 1) :
    Torch.bcast f xs ys = Except.error Torch.sizeErr := by
  unfold Torch.bcast
  rw [if_neg h1, if_neg h2, if_neg h3]

/-- `torch.cat` succeeds on a nonempty batch, returning it unchanged. -/
theorem cat_of_ne_nil {l : List (List ℝ)} (h : l ≠ []) : Torch.cat l = Except.ok l := by
  cases l with
  | nil => exact absurd rfl h
  | cons x xs => rfl

/-- `torch.stack` succeeds on a nonempty list, returning it unchanged. -/
theorem stack_of_ne_nil {α : Type} {l : List α} (h : l ≠ []) :
    Torch.stack l = Except.ok l := by
  cases l with
  | nil => exact absurd rfl h
  | cons x xs => rfl

/-- Reduction of a successful `Except` bind. -/
theorem except_ok_bind {α β : Type} (a : α) (f : α → Except String β) :
    ((Except.ok a : Except String α) >>= f) = f a := rfl

/-- Propagation of an `Except` error through bind. -/
theorem except_error_bind {α β : Type} (e : String) (f : α → Except String β) :
    ((Except.error e : Except String α) >>= f) = Except.error e := rfl

/-- An epoch body fails with the size-mismatch error as soon as the advantage
subtraction `returns - state_values` is broadcast-incompatible (the earlier
`logprobs - old_logprobs` subtraction being well-sized). -/
theorem epochBody_error_of_mismatch {P O : Type}
    {ev : P → List (List ℝ) → List ℕ → List ℝ × List ℝ × List ℝ}
    {step : P → O → Option ℝ → P × O} {eps : ℝ} {rts : List (Option ℝ)}
    {sts : List (List ℝ)} {acts : List ℕ} {lps : List ℝ} {p : P} {o : O}
    (hlpe : ((ev p sts acts).1).length = lps.length)
    (h1 : rts.length ≠ ((ev p sts acts).2.1).length)
    (h2 : rts.length ≠ 1) (h3 : ((ev p sts acts).2.1).length ≠ 1) :
    PPO.epochBody ev step eps rts sts acts lps p o = Except.error Torch.sizeErr := by
  simp only [PPO.epochBody]
  rw [bcast_of_eq_len (by simpa using hlpe)]
  rw [except_ok_bind]
  rw [bcast_of_mismatch (by simpa using h1) h2 (by simpa using h3)]
  rw [except_error_bind]

/-- Shared concrete fixtures used by the closed witness theorems: a trivial
policy/optimizer pair (`Unit`), an `evaluate` returning zero log-probs,
values and entropies (one per state row), and an optimizer step that leaves
the parameters unchanged. -/
noncomputable def ev0 : Unit → List (List ℝ) → List ℕ → List ℝ × List ℝ × List ℝ :=
  fun _ sts _ => (sts.map (fun _ => 0), sts.map (fun _ => 0), sts.map (fun _ => 0))

/-- Trivial optimizer step for the witness fixtures. -/
def step0 : Unit → Unit → Option ℝ → Unit × Unit := fun _ _ _ => ((), ())

/-- A well-formed single-transition rollout (the shape of the repository's own
`test_ppo_update`): one state/action/log-probability and one reward/terminal. -/
noncomputable def s1 : PPOState Unit Unit :=
  { gamma := 0.99, eps_clip := 0.2, K_epochs := 1, policy := (), policy_old := (),
    optim := (),
    memory := { states := [[0]], actions := [0], logprobs := [0], rewards := [1],
                is_terminals := [true] } }

/-- The controller state `update` produces from `s1`. -/
noncomputable def s1fin : PPOState Unit Unit := { s1 with memory := emptyMemory }

/-- A controller state with an empty memory (no transitions collected). -/
noncomputable def sEmpty : PPOState Unit Unit :=
  { gamma := 0.99, eps_clip := 0.2, K_epochs := 4, policy := (), policy_old := (),
    optim := (), memory := emptyMemory }

/-- A mismatched rollout: two stored states/actions/log-probabilities but only
one reward/terminal pair, so the returns batch has length 1 and broadcasts
silently against the length-2 value batch. -/
noncomputable def sMis : PPOState Unit Unit :=
  { gamma := 0.99, eps_clip := 0.2, K_epochs := 1, policy := (), policy_old := (),
    optim := (),
    memory := { states := [[0], [0]], actions := [0, 1], logprobs := [0, 0],
                rewards := [1], is_terminals := [true] } }

/-- The controller state `update` produces from `sMis`. -/
noncomputable def sMisFin : PPOState Unit Unit := { sMis with memory := emptyMemory }

/-- A mismatched rollout that is broadcast-incompatible: three stored
states/actions/log-probabilities against two reward/terminal pairs. -/
noncomputable def sMis2 : PPOState Unit Unit :=
  { gamma := 0.99, eps_clip := 0.2, K_epochs := 1, policy := (), policy_old := (),
    optim := (),
    memory := { states := [[0], [0], [0]], actions := [0, 1, 2], logprobs := [0, 0, 0],
                rewards := [1, 2], is_terminals := [false, true] } }

/-- Normalizing a batch of at least two identical return values yields
well-defined zeros: the mean equals the common value, every deviation is zero,
and `0 / (0 + 1e-8) = 0`. -/
theorem normalizeReturns_const (xs : List ℝ) (c : ℝ) (h2 : 2 ≤ xs.length)
    (hc : ∀ x ∈ xs, x = c) : normalizeReturns xs = xs.map (fun _ => some 0) := by
  have hrep : xs = List.replicate xs.length c := List.eq_replicate_iff.mpr ⟨rfl, hc⟩
  have hsum : xs.sum = (xs.length : ℝ) * c := by
    conv_lhs => rw [hrep]
    simp [List.sum_replicate, nsmul_eq_mul]
  have hmean : tmean xs = c := by
    unfold tmean
    rw [hsum]
    field_simp
  unfold normalizeReturns
  rw [if_neg (by omega)]
  refine List.map_congr_left ?_
  intro x hx
  rw [hc x hx, hmean]
  simp

/-! ### Claim theorems -/

/-- C1: for every rollout whose stored reward and terminal sequences have
equal length `n`, `update`'s return computation produces exactly `n` values in
chronological order; the pre-normalization values satisfy the reverse-walk
recurrence `R_i = r_i + gamma * R_(i+1)` with the running total reset at each
terminal before that step's reward is folded in (`specReturns`); the output is
those values normalized by subtracting the batch mean and dividing by the
batch standard deviation plus `1e-8`; and the two concrete examples
`[1, 1]`/`[False, True]` ↦ `[1.99, 1.0]` and `[1, 1]`/`[True, True]` ↦
`[1.0, 1.0]` hold pre-normalization with `gamma = 0.99`. -/
theorem C1_compute_returns (gamma : ℝ) (rw : List ℝ) (tm : List Bool)
    (h : rw.length = tm.length) :
    (PPO.compute_returns gamma rw tm).length = rw.length
    ∧ computeReturnsPre gamma rw tm = specReturns gamma rw tm
    ∧ PPO.compute_returns gamma rw tm = normalizeReturns (specReturns gamma rw tm)
    ∧ (2 ≤ rw.length → PPO.compute_returns gamma rw tm =
        (specReturns gamma rw tm).map (fun x =>
          some ((x - tmean (specReturns gamma rw tm)) /
            (tstd (specReturns gamma rw tm) + 1e-8))))
    ∧ computeReturnsPre (99 / 100 : ℚ) [1, 1] [false, true] = [199 / 100, 1]
    ∧ computeReturnsPre (99 / 100 : ℚ) [1, 1] [true, true] = [1, 1] := by
  have hspec := computeReturnsPre_eq_spec gamma rw tm h
  refine ⟨compute_returns_length gamma rw tm h, hspec, ?_, ?_, ?_, ?_⟩
  · unfold PPO.compute_returns
    rw [hspec]
  · intro h2
    have hlen : (specReturns gamma rw tm).length = rw.length := by
      rw [specReturns_length, h, Nat.min_self]
    unfold PPO.compute_returns
    rw [hspec]
    unfold normalizeReturns
    rw [if_neg (by omega)]
  · norm_num [computeReturnsPre, returnsStep]
  · norm_num [computeReturnsPre, returnsStep]

/-- Witness for C1 at the concrete rollout `rewards = [1, 1]`,
`terminals = [false, true]`, `gamma = 0.99`. -/
theorem C1_witness :
    (PPO.compute_returns 0.99 [1, 1] [false, true]).length = 2 ∧
      computeReturnsPre (0.99 : ℝ) [1, 1] [false, true] =
        specReturns (0.99 : ℝ) [1, 1] [false, true] :=
  ⟨(C1_compute_returns 0.99 [1, 1] [false, true] rfl).1,
   (C1_compute_returns 0.99 [1, 1] [false, true] rfl).2.1⟩

/-- C2 counterexample: the claim's lower bound for negative advantages fails.
At ratio `10`, `eps = 1/5`, advantage `-1` (satisfying the claim's side
conditions `ratio > 0`, `0 < eps < 1`, `advantage < 0`), the surrogate term is
`-10`, strictly below `(1 - eps) * advantage = -4/5`, so it is not bounded
below by `(1 - eps) * advantage`. -/
theorem C2_counterexample :
    ((0 : ℚ) < 10 ∧ (0 : ℚ) < 1 / 5 ∧ (1 : ℚ) / 5 < 1 ∧ (-1 : ℚ) < 0)
    ∧ ¬ ((1 - 1 / 5) * (-1 : ℚ) ≤ surrTerm (1 / 5) 10 (-1)) := by
  norm_num [surrTerm, Torch.clamp, min_def, max_def]

/-- C2 amended: for every ratio `r > 0`, advantage `a` and clip range
`0 < eps < 1`, the per-transition surrogate term
`min(r * a, clamp(r, 1 - eps, 1 + eps) * a)` is bounded above by
`(1 + eps) * a` whenever `a > 0` and bounded ABOVE by `(1 - eps) * a`
whenever `a < 0` (not below, as the claim stated: for large ratios the term
tends to `-∞` when the advantage is negative); the concrete instance
`ratio = 10`, `eps = 0.2`, `advantage = 1` evaluates to `1.2`, not `10`. -/
theorem C2_amended (r a eps : ℚ) (_hr : 0 < r) (he0 : 0 < eps) (he1 : eps < 1) :
    (0 < a → surrTerm eps r a ≤ (1 + eps) * a)
    ∧ (a < 0 → surrTerm eps r a ≤ (1 - eps) * a)
    ∧ surrTerm (1 / 5) 10 1 = 6 / 5 := by
  refine ⟨?_, ?_, by norm_num [surrTerm, Torch.clamp, min_def, max_def]⟩
  · intro ha
    unfold surrTerm Torch.clamp
    have h1 : min (max r (1 - eps)) (1 + eps) ≤ 1 + eps := min_le_right _ _
    have h2 : min (max r (1 - eps)) (1 + eps) * a ≤ (1 + eps) * a :=
      mul_le_mul_of_nonneg_right h1 (le_of_lt ha)
    exact le_trans (min_le_right _ _) h2
  · intro ha
    unfold surrTerm Torch.clamp
    have h1 : 1 - eps ≤ min (max r (1 - eps)) (1 + eps) :=
      le_min (le_max_right _ _) (by linarith)
    have h2 : min (max r (1 - eps)) (1 + eps) * a ≤ (1 - eps) * a := by nlinarith
    exact le_trans (min_le_right _ _) h2

/-- Witness for the amended C2 at ratio `10`, `eps = 1/5`, advantage `1`. -/
theorem C2_witness :
    surrTerm (1 / 5) 10 1 ≤ (1 + 1 / 5) * 1 ∧ surrTerm (1 / 5) 10 1 = 6 / 5 :=
  ⟨(C2_amended 10 1 (1 / 5) (by norm_num) (by norm_num) (by norm_num)).1 (by norm_num),
   (C2_amended 10 1 (1 / 5) (by norm_num) (by norm_num) (by norm_num)).2.2⟩

/-- C3: in each of the `K` epochs of a single successful `update()` call, the
advantage vector recorded for epoch `k` equals the (broadcast) difference
between the normalized returns and the value estimates freshly recomputed by
the current policy's `evaluate` at the parameters reached after `k` optimizer
steps of this update (`iterEpochs k`) — the baseline drifts with the epochs
instead of being a fixed rollout-time value estimate.  The value estimates
enter the advantage only as data (`state_values.detach()`), which the
embedding reflects by treating them as plain lists. -/
theorem C3_advantage_recomputed {P O : Type}
    (ev : P → List (List ℝ) → List ℕ → List ℝ × List ℝ × List ℝ)
    (step : P → O → Option ℝ → P × O) (s s' : PPOState P O)
    (advs : List (List (Option ℝ))) (k : ℕ)
    (hupd : PPO.update ev step s = Except.ok (s', advs)) (hk : k < s.K_epochs) :
    ∃ pk ok2 advk,
      PPO.iterEpochs ev step s.eps_clip
          (PPO.compute_returns s.gamma s.memory.rewards s.memory.is_terminals)
          s.memory.states s.memory.actions s.memory.logprobs k s.policy s.optim
        = Except.ok (pk, ok2)
      ∧ advs[k]? = some advk
      ∧ Torch.bcast osub
          (PPO.compute_returns s.gamma s.memory.rewards s.memory.is_terminals)
          (((ev pk s.memory.states s.memory.actions).2.1).map some)
        = Except.ok advk := by
  simp only [PPO.update] at hupd
  obtain ⟨os, hos, h1⟩ := except_bind_ok hupd
  obtain ⟨oa, hoa, h2⟩ := except_bind_ok h1
  obtain ⟨olp, holp, h3⟩ := except_bind_ok h2
  obtain ⟨r, hr, h4⟩ := except_bind_ok h3
  have hos2 := cat_ok hos
  subst hos2
  have hoa2 := stack_ok hoa
  subst hoa2
  have holp2 := stack_ok holp
  subst holp2
  have hadvs : advs = r.2.2 := (congrArg Prod.snd (Except.ok.inj h4)).symm
  subst hadvs
  obtain ⟨po, advk, hiter, hidx, hb⟩ :=
    epochLoop_advantages k s.K_epochs s.policy s.optim hk hr
  exact ⟨po.1, po.2, advk, hiter, hidx, hb⟩

/-- Witness for C3 on the concrete single-transition rollout `s1` with one
epoch, at `k = 0`. -/
theorem C3_witness :
    ∃ pk ok2 advk,
      PPO.iterEpochs ev0 step0 s1.eps_clip
          (PPO.compute_returns s1.gamma s1.memory.rewards s1.memory.is_terminals)
          s1.memory.states s1.memory.actions s1.memory.logprobs 0 s1.policy s1.optim
        = Except.ok (pk, ok2)
      ∧ ([[(none : Option ℝ)]])[0]? = some advk
      ∧ Torch.bcast osub
          (PPO.compute_returns s1.gamma s1.memory.rewards s1.memory.is_terminals)
          (((ev0 pk s1.memory.states s1.memory.actions).2.1).map some)
        = Except.ok advk :=
  C3_advantage_recomputed ev0 step0 s1 s1fin [[none]] 0 rfl (by decide)

/-- C4: at construction the old policy's parameters are an exact copy of the
current policy's; immediately after every successful `update()` the old
policy's parameters equal the current policy's post-update parameters; and
between updates neither `select_action` nor a memory-only modification ever
changes the old policy's parameters. -/
theorem C4_policy_sync {P O : Type} (p q : P) (o : O) (g e : ℝ) (K : ℕ)
    (ev : P → List (List ℝ) → List ℕ → List ℝ × List ℝ × List ℝ)
    (step : P → O → Option ℝ → P × O) (s s' : PPOState P O)
    (advs : List (List (Option ℝ)))
    (hupd : PPO.update ev step s = Except.ok (s', advs)) :
    (PPO.init (O := O) p q o g e K).policy_old = (PPO.init (O := O) p q o g e K).policy
    ∧ s'.policy_old = s'.policy
    ∧ (∀ (actF : P → List ℝ → ℕ × ℝ) (state : List ℝ),
        ((PPO.select_action actF s state).2).policy_old = s.policy_old)
    ∧ (∀ m : Memory, ({ s with memory := m } : PPOState P O).policy_old = s.policy_old) := by
  obtain ⟨pf, ofin, rfl⟩ := update_ok_state hupd
  exact ⟨rfl, rfl, fun _ _ => rfl, fun _ => rfl⟩

/-- Witness for C4 on the concrete single-transition rollout `s1`. -/
theorem C4_witness : s1fin.policy_old = s1fin.policy :=
  (C4_policy_sync () () () 0.99 0.2 1 ev0 step0 s1 s1fin [[none]] rfl).2.1

/-- C5: after every successful `update()` call (all epochs done and the old
policy synchronized), all five parallel sequences of the controller's Memory
are empty. -/
theorem C5_memory_cleared {P O : Type}
    (ev : P → List (List ℝ) → List ℕ → List ℝ × List ℝ × List ℝ)
    (step : P → O → Option ℝ → P × O) (s s' : PPOState P O)
    (advs : List (List (Option ℝ)))
    (hupd : PPO.update ev step s = Except.ok (s', advs)) :
    s'.memory.states = [] ∧ s'.memory.actions = [] ∧ s'.memory.logprobs = []
    ∧ s'.memory.rewards = [] ∧ s'.memory.is_terminals = [] := by
  obtain ⟨pf, ofin, rfl⟩ := update_ok_state hupd
  exact ⟨rfl, rfl, rfl, rfl, rfl⟩

/-- Witness for C5 on the concrete single-transition rollout `s1`. -/
theorem C5_witness :
    s1fin.memory.states = [] ∧ s1fin.memory.actions = [] ∧ s1fin.memory.logprobs = []
    ∧ s1fin.memory.rewards = [] ∧ s1fin.memory.is_terminals = [] :=
  C5_memory_cleared ev0 step0 s1 s1fin [[none]] rfl

/-- C6 counterexample: on a single-transition rollout the return normalization
does not yield a well-defined value — `torch.std` of one sample divides the
zero sum of squared deviations by `n - 1 = 0`, producing NaN (modelled by
`none`), which the `1e-8` constant cannot repair because it is added to NaN,
not to zero.  The single normalized return of the rollout with reward `5` and
terminal `true` is NaN, refuting the claim's "well-defined (non-NaN)" part. -/
theorem C6_counterexample : PPO.compute_returns 0.99 [5] [true] = [none] := rfl

/-- C6 amended: the return normalization never raises a division-by-zero error
(the embedding of line 54 is total and length-preserving for every input); for
rollouts with at least two transitions whose computed returns are all
identical (zero standard deviation) it yields well-defined values (all zero)
because the denominator is clamped to `1e-8`; but for a single-transition
rollout every normalized return is NaN, because the Bessel-corrected standard
deviation of one sample is `0/0`, not zero. -/
theorem C6_amended (xs : List ℝ) (c : ℝ) (h2 : 2 ≤ xs.length)
    (hc : ∀ x ∈ xs, x = c) :
    normalizeReturns xs = xs.map (fun _ => some 0)
    ∧ (∀ ys : List ℝ, (normalizeReturns ys).length = ys.length)
    ∧ (∀ x : ℝ, normalizeReturns [x] = [none]) :=
  ⟨normalizeReturns_const xs c h2 hc, normalizeReturns_length, fun _ => rfl⟩

/-- Witness for the amended C6 on the identical batch `[3, 3]`. -/
theorem C6_witness :
    normalizeReturns [3, 3] = [some 0, some 0]
    ∧ normalizeReturns [(7 : ℝ)] = [none] :=
  ⟨(C6_amended [3, 3] 3 (by norm_num) (fun x hx => by simpa using hx)).1,
   (C6_amended [3, 3] 3 (by norm_num) (fun x hx => by simpa using hx)).2.2 7⟩

/-- C7: calling `update()` with an empty Memory fails loudly: `torch.cat` on
the empty list of stored states raises (a `RuntimeError`, modelled as
`Except.error`) before the epoch loop — and hence before any optimizer step —
is reached.  The result is this error for every `evaluate` and every optimizer
step function, so no optimizer step can have influenced it. -/
theorem C7_empty_update_errors {P O : Type}
    (ev : P → List (List ℝ) → List ℕ → List ℝ × List ℝ × List ℝ)
    (step : P → O → Option ℝ → P × O) (s : PPOState P O)
    (h : s.memory = emptyMemory) :
    PPO.update ev step s = Except.error Torch.catEmptyErr := by
  have hs : s.memory.states = [] := by rw [h]; rfl
  simp only [PPO.update, hs]
  rfl

/-- Witness for C7 on the concrete empty-memory controller state. -/
theorem C7_witness : PPO.update ev0 step0 sEmpty = Except.error Torch.catEmptyErr :=
  C7_empty_update_errors ev0 step0 sEmpty rfl

/-- C8 counterexample: with two stored states/actions/log-probabilities but
only one reward/terminal pair (a usage-contract violation), `update` does NOT
fail: the length-1 returns batch broadcasts silently against the length-2
value batch, and the call completes an optimizer step and clears the memory,
returning `ok`. -/
theorem C8_counterexample :
    PPO.update ev0 step0 sMis = Except.ok (sMisFin, [[none, none]]) := rfl

/-- C8 amended: `update` performs no explicit length validation; a mismatch
between the reward/terminal length `m` and the state/action/log-probability
length `n` surfaces as a loud size-mismatch error only when the two batches
are broadcast-incompatible (`m ≠ n`, `m ≠ 1`, `n ≠ 1`, with `n ≥ 2` so the
stacking succeeds); when `m = 1` the subtraction broadcasts and `update`
silently completes on truncated data (see the counterexample). -/
theorem C8_amended {P O : Type}
    (ev : P → List (List ℝ) → List ℕ → List ℝ × List ℝ × List ℝ)
    (step : P → O → Option ℝ → P × O) (s : PPOState P O) (m n : ℕ)
    (hst : s.memory.states.length = n) (hac : s.memory.actions.length = n)
    (hlp : s.memory.logprobs.length = n)
    (hrw : s.memory.rewards.length = m) (htm : s.memory.is_terminals.length = m)
    (hevlp : ∀ p sts acts, ((ev p sts acts).1).length = sts.length)
    (hevv : ∀ p sts acts, ((ev p sts acts).2.1).length = sts.length)
    (hK : 1 ≤ s.K_epochs) (hn : 2 ≤ n) (hm1 : m ≠ 1) (hmn : m ≠ n) :
    PPO.update ev step s = Except.error Torch.sizeErr := by
  have hret : (PPO.compute_returns s.gamma s.memory.rewards s.memory.is_terminals).length
      = m := by
    rw [compute_returns_length s.gamma _ _ (by rw [hrw, htm]), hrw]
  have hsne : s.memory.states ≠ [] := by
    intro hnil
    rw [hnil] at hst
    simp at hst
    omega
  have hane : s.memory.actions ≠ [] := by
    intro hnil
    rw [hnil] at hac
    simp at hac
    omega
  have hlne : s.memory.logprobs ≠ [] := by
    intro hnil
    rw [hnil] at hlp
    simp at hlp
    omega
  obtain ⟨K1, hK1⟩ : ∃ K1, s.K_epochs = K1 + 1 := by
    cases hKe : s.K_epochs with
    | zero => omega
    | succ K1 => exact ⟨K1, rfl⟩
  have hbody : PPO.epochBody ev step s.eps_clip
      (PPO.compute_returns s.gamma s.memory.rewards s.memory.is_terminals)
      s.memory.states (Torch.squeezeVals s.memory.actions) s.memory.logprobs
      s.policy s.optim = Except.error Torch.sizeErr := by
    refine epochBody_error_of_mismatch ?_ ?_ ?_ ?_
    · rw [hevlp, hst, hlp]
    · rw [hret, hevv, hst]
      exact hmn
    · rw [hret]
      exact hm1
    · rw [hevv, hst]
      omega
  simp only [PPO.update, cat_of_ne_nil hsne, stack_of_ne_nil hane, stack_of_ne_nil hlne,
    except_ok_bind, hK1, PPO.epochLoop, hbody, except_error_bind]

/-- Witness for the amended C8: three stored transitions against two
reward/terminal pairs make `update` raise the size-mismatch error. -/
theorem C8_witness : PPO.update ev0 step0 sMis2 = Except.error Torch.sizeErr :=
  C8_amended ev0 step0 sMis2 2 3 rfl rfl rfl rfl rfl
    (fun _ sts _ => by simp [ev0]) (fun _ sts _ => by simp [ev0])
    (by decide) (by decide) (by decide) (by decide)

/-- C9: `select_action` returns exactly the action the old policy's `act`
produces on the given state and shared memory, records the transition into
the memory exactly as `act` does, and mutates neither the current policy, nor
the old policy, nor the optimizer state, nor the configuration fields
`gamma`, `eps_clip`, `K_epochs`. -/
theorem C9_select_action_frame {P O : Type} (actF : P → List ℝ → ℕ × ℝ)
    (s : PPOState P O) (state : List ℝ) :
    (PPO.select_action actF s state).1 = (act actF s.policy_old state s.memory).1
    ∧ ((PPO.select_action actF s state).2).memory
        = (act actF s.policy_old state s.memory).2
    ∧ ((PPO.select_action actF s state).2).policy = s.policy
    ∧ ((PPO.select_action actF s state).2).policy_old = s.policy_old
    ∧ ((PPO.select_action actF s state).2).optim = s.optim
    ∧ ((PPO.select_action actF s state).2).gamma = s.gamma
    ∧ ((PPO.select_action actF s state).2).eps_clip = s.eps_clip
    ∧ ((PPO.select_action actF s state).2).K_epochs = s.K_epochs :=
  ⟨rfl, rfl, rfl, rfl, rfl, rfl, rfl, rfl⟩

/-- C10: the actions batch `update` passes to `evaluate` is
`torch.stack(actions).squeeze()`; stacking `n` scalar (0-dimensional) actions
gives shape `[n]`, and `squeeze` removes all size-one dimensions, so a
single-transition rollout yields a 0-dimensional (scalar) tensor while every
rollout of length at least 2 yields a 1-dimensional batch of length `n`. -/
theorem C10_action_batch_shape (n : ℕ) :
    (n = 1 → PPO.stackedActionsShape n = [])
    ∧ (2 ≤ n → PPO.stackedActionsShape n = [n]) := by
  constructor
  · rintro rfl
    rfl
  · intro h2
    have hne : (n != 1) = true := by
      simp only [bne_iff_ne, ne_eq]
      omega
    simp only [PPO.stackedActionsShape, Torch.squeezeShape, Torch.stackShape, actionShape,
      List.filter, hne]

/-- Witness for C10 at rollout lengths 1 and 2. -/
theorem C10_witness :
    PPO.stackedActionsShape 1 = [] ∧ PPO.stackedActionsShape 2 = [2] :=
  ⟨(C10_action_batch_shape 1).1 rfl, (C10_action_batch_shape 2).2 (by norm_num)⟩
